import Mathlib

/-!
Verification development for the oil-synth audio engine.

The definitions below are a shallow embedding of the JavaScript source:
`Synthesizer` (src/audio/synthesizer.js) and `LoopController`
(src/audio/loop-controller.js).  JavaScript numbers are modelled as
rationals (`ℚ`); the final frequency in Hertz, which involves `2^(s/12)`,
is modelled in `ℝ`.  Fallible computations (reading past the end of a
JavaScript array yields `undefined`, which poisons arithmetic to `NaN`)
are modelled with `Option`.
-/

namespace OilSynth

/-- Translation of `Math.max(-1, Math.min(1, v))`, the hard clip used by overdub mixing. -/
def clampSample (v : ℚ) : ℚ := max (-1) (min 1 v)

/-- Translation of `Math.max(0, Math.min(1, v))`, the clamp used when storing parameters. -/
def clamp01 (v : ℚ) : ℚ := max 0 (min 1 v)

/-! ## Loop session state (`LoopController`) -/

/-- The fields of `LoopController` that the loop-control claims observe.
`hasBuffer` models nullity of `this.recordedBuffer`; the buffer contents
are modelled separately by `mixOverdub`. -/
structure LoopState where
  isRecording : Bool
  isPlaying : Bool
  hasBuffer : Bool
  loopDuration : ℚ
  recordStartTime : ℚ
  playStartTime : ℚ
  volume : ℚ
deriving DecidableEq, Repr

/-- Constant `this.maxLoopDuration = 30` (seconds), fixed at construction. -/
def maxLoopDuration : ℚ := 30

/-- Translation of `LoopController.stopRecording()` at audio-context time `now`:
returns `false` when not recording; otherwise clears the recording flag
and, only when no loop buffer exists yet (a New recording), commits
`loopDuration = now - recordStartTime` raised to at least `0.1` and then
capped at `maxLoopDuration`. -/
def stopRecording (now : ℚ) (s : LoopState) : Bool × LoopState :=
  if s.isRecording = false then (false, s)
  else
    let s1 := { s with isRecording := false }
    if s1.hasBuffer then (true, s1)
    else
      let d0 := now - s.recordStartTime
      let d1 := if d0 < 1/10 then (1/10 : ℚ) else d0
      let d2 := if d1 > maxLoopDuration then maxLoopDuration else d1
      (true, { s1 with loopDuration := d2 })

/-- Translation of `LoopController.stopPlayback()`: returns `false` when not playing,
otherwise clears the playing flag. -/
def stopPlayback (s : LoopState) : Bool × LoopState :=
  if s.isPlaying = false then (false, s)
  else (true, { s with isPlaying := false })

/-- Translation of `LoopController.clear()` at audio-context time `now`: stops recording
and playback if active, discards the buffer and resets the duration;
always returns `true`. -/
def clear (now : ℚ) (s : LoopState) : Bool × LoopState :=
  let s1 := if s.isRecording then (stopRecording now s).2 else s
  let s2 := if s1.isPlaying then (stopPlayback s1).2 else s1
  (true, { s2 with hasBuffer := false, loopDuration := 0 })

/-- The record returned by `LoopController.getState()`. -/
structure LoopUIState where
  isRecording : Bool
  isPlaying : Bool
  hasLoop : Bool
  duration : ℚ
  volume : ℚ
deriving DecidableEq, Repr

/-- Translation of `LoopController.getState()`. -/
def getState (s : LoopState) : LoopUIState :=
  { isRecording := s.isRecording
    isPlaying := s.isPlaying
    hasLoop := s.hasBuffer
    duration := s.loopDuration
    volume := s.volume }

/-! ## Parameters and effect state (`Synthesizer.setParameter`) -/

/-- The five named parameters accepted by `setParameter`. -/
inductive ParamName where
  | grime | flow | shimmer | depth | octave
deriving DecidableEq, Repr

/-- The stored parameter record `this.params`. -/
structure Params where
  grime : ℚ
  flow : ℚ
  shimmer : ℚ
  depth : ℚ
  octave : ℚ
deriving DecidableEq, Repr

/-- Read `this.params[name]`. -/
def Params.get (p : Params) : ParamName → ℚ
  | .grime => p.grime
  | .flow => p.flow
  | .shimmer => p.shimmer
  | .depth => p.depth
  | .octave => p.octave

/-- Write `this.params[name] = v`. -/
def Params.put (p : Params) : ParamName → ℚ → Params
  | .grime, v => { p with grime := v }
  | .flow, v => { p with flow := v }
  | .shimmer, v => { p with shimmer := v }
  | .depth, v => { p with depth := v }
  | .octave, v => { p with octave := v }

/-- The effect-chain settings that `setParameter` derives (the settled
target values of the `setTargetAtTime` calls and the waveshaper drive).
`delayTime` is in seconds, as in the source. -/
structure EffectState where
  distortionDrive : ℚ
  distortionWet : ℚ
  distortionDry : ℚ
  delayTime : ℚ
  delayLevel : ℚ
  delayFeedback : ℚ
  chorusLevel : ℚ
  chorusDepth : ℚ
  reverbLevel : ℚ
deriving DecidableEq, Repr

/-- Synthesizer state relevant to the parameter claims.  `nodesReady`
models the `if (this.distortion && ...)` style guards: all effect nodes
are created together by `setupAudioChain`. -/
structure SynthFx where
  params : Params
  fx : EffectState
  nodesReady : Bool
deriving DecidableEq, Repr

/-- Translation of `Synthesizer.setParameter(param, value)`.  The stored parameter is
clamped to `[0,1]`; the derived effect settings are computed from the
raw, unclamped `value`, exactly as in the source. -/
def setParameter (p : ParamName) (v : ℚ) (s : SynthFx) : SynthFx :=
  let s1 := { s with params := s.params.put p (clamp01 v) }
  if s.nodesReady = false then s1 else
  match p with
  | .grime =>
      { s1 with fx := { s1.fx with
          distortionDrive := 20 + v * 200
          distortionWet := v
          distortionDry := 1 - v } }
  | .flow =>
      { s1 with fx := { s1.fx with
          delayTime := 1/20 + v * (9/20)
          delayLevel := v * (4/5)
          delayFeedback := v * (17/20) } }
  | .shimmer =>
      { s1 with fx := { s1.fx with
          chorusLevel := v * (4/5)
          chorusDepth := v * (1/100) } }
  | .depth =>
      { s1 with fx := { s1.fx with reverbLevel := v * (1/2) } }
  | .octave => s1

/-- Translation of `Synthesizer.getParameter(param)`. -/
def getParameter (p : ParamName) (s : SynthFx) : ℚ := s.params.get p

/-- The synthesizer state right after `setupAudioChain`: the constructor
defaults of `this.params` and the initial node settings. -/
def defaultSynthFx : SynthFx :=
  { params := { grime := 3/10, flow := 1/5, shimmer := 3/20,
                depth := 1/4, octave := 9/20 }
    fx := { distortionDrive := 50, distortionWet := 3/10,
            distortionDry := 7/10, delayTime := 1/5, delayLevel := 3/10,
            delayFeedback := 2/5, chorusLevel := 1/2,
            chorusDepth := 1/200, reverbLevel := 1/5 }
    nodesReady := true }

/-! ## Scale mapper (`Synthesizer.positionToFrequency`) -/

/-- The 7 discrete positions of the octave knob. -/
def octaveSteps : List ℚ := [0, 1/5, 7/20, 1/2, 13/20, 4/5, 1]

/-- The corresponding octave offsets. -/
def octaveRanges : List ℚ := [-2, -1, -1/2, 0, 1/2, 1, 2]

/-- The scan of the source for-loop: after considering steps `0..n`,
returns the index of the first minimal distance and that distance
(updates only on a strictly smaller distance). -/
def closestStepAux (v : ℚ) : ℕ → ℕ × ℚ
  | 0 => (0, |v - octaveSteps.getD 0 0|)
  | n + 1 =>
      let best := closestStepAux v n
      let d := |v - octaveSteps.getD (n + 1) 0|
      if d < best.2 then (n + 1, d) else best

/-- The `closestIndex` computed in `positionToFrequency` for an octave
parameter value `v`. -/
def quantizeOctaveIndex (v : ℚ) : ℕ := (closestStepAux v 6).1

/-! ## Frequency mapping (claim C2) -/

/-- Constant `this.pentatonicIntervals = [0, 2, 4, 7, 9]`. -/
def pentatonicIntervals : List ℚ := [0, 2, 4, 7, 9]

/-- The semitone count `pentatonicIntervals[scaleIndex] + octave * 12`
computed by `positionToFrequency`, as a partial function: when
`scaleIndex = Math.floor(x * 5)` falls outside the array, the JavaScript
read yields `undefined` and poisons the result to `NaN`, modelled as
`none`. -/
def semitonesFromC0 (x y octaveParam : ℚ) : Option ℚ :=
  let closestIndex := quantizeOctaveIndex octaveParam
  let octaveOffset := octaveRanges.getD closestIndex 0
  let baseOctave : ℚ := 2 + octaveOffset
  let octave : ℚ := (⌊y * 2⌋ : ℚ) + baseOctave
  let scaleIndex : ℤ := ⌊x * 5⌋
  if 0 ≤ scaleIndex ∧ scaleIndex < 5 then
    some (pentatonicIntervals.getD scaleIndex.toNat 0 + octave * 12)
  else none

/-- Translation of `Synthesizer.positionToFrequency(x, y)` with octave parameter `p`:
`16.35 * 2^(semitones / 12)` Hz, undefined (`NaN`) when the pentatonic
lookup is out of range. -/
noncomputable def positionToFrequency (x y octaveParam : ℚ) :
    Option ℝ :=
  (semitonesFromC0 x y octaveParam).map
    (fun s : ℚ => (1635/100 : ℝ) * (2 : ℝ) ^ ((s : ℝ) / 12))

/-- The pentatonic intervals as integers, for counting. -/
def pentatonicSemitones : List ℤ := [0, 2, 4, 7, 9]

/-- The 7 anchor octave offsets expressed in semitones
(`12 * octaveRanges[j]`). -/
def octaveSemitoneOffsets : List ℤ := [-24, -12, -6, 0, 6, 12, 24]

/-- All semitone values reachable with `x, y ∈ [0, 1)`: a pitch-class
index in `Fin 5`, a `y` octave band in `Fin 2` and an anchor index in
`Fin 7`. -/
def semitoneValueSet : Finset ℤ :=
  (Finset.univ : Finset (Fin 5 × Fin 2 × Fin 7)).image
    (fun t => pentatonicSemitones.getD (t.1 : ℕ) 0 +
      12 * (t.2.1 : ℤ) + 24 + octaveSemitoneOffsets.getD (t.2.2 : ℕ) 0)

/-- The frequencies corresponding to `semitoneValueSet`. -/
noncomputable def frequencyValueSet : Set ℝ :=
  (fun s : ℤ => (1635/100 : ℝ) * (2 : ℝ) ^ ((s : ℝ) / 12)) ''
    (semitoneValueSet : Set ℤ)

/-! ## Voice pool (`Synthesizer.startVoice`, `setComplexity`) -/

/-- The fields of a pool voice the allocation claims observe. -/
structure Voice where
  playing : Bool
  x : ℚ
  y : ℚ
  intensity : ℚ
deriving DecidableEq, Repr

/-- The synthesizer state relevant to voice allocation. -/
structure SynthPool where
  voices : List Voice
  maxVoices : ℕ
  isInitialized : Bool
deriving DecidableEq, Repr

/-- Translation of `Synthesizer.stopVoice(voice)`: no-op when already stopped,
otherwise clears the playing flag (the release ramp is not observable
here). -/
def stopVoice (v : Voice) : Voice :=
  if v.playing = false then v else { v with playing := false }

/-- JavaScript array write `voices[i] = v` for `i ≤ voices.length`:
in-place update, or extension by one element when `i = length`. -/
def setOrAppend (l : List Voice) (i : ℕ) (v : Voice) : List Voice :=
  if i < l.length then l.set i v else l ++ [v]

/-- Translation of `Synthesizer.startVoice(x, y, intensity)`: `null` when not
initialized; otherwise picks the first non-playing slot, else appends
while below `maxVoices`, else steals slot 0 (stopping the voice there
before overwriting it). -/
def startVoice (x y intensity : ℚ) (s : SynthPool) :
    Option Voice × SynthPool :=
  if s.isInitialized = false then (none, s)
  else
    let nv : Voice :=
      { playing := true, x := x, y := y, intensity := intensity }
    let found := s.voices.findIdx (fun v => !v.playing)
    let voiceIndex :=
      if found < s.voices.length then found
      else if s.voices.length < s.maxVoices then s.voices.length
      else 0
    (some nv, { s with voices := setOrAppend s.voices voiceIndex nv })

/-- The number of currently playing voices in the pool. -/
def playingCount (s : SynthPool) : ℕ :=
  s.voices.countP (fun v => v.playing)

/-- Translation of `Synthesizer.setComplexity(complexity)`: rescales `maxVoices` to
`Math.ceil(5 * complexity)` and, only when that shrinks the pool, stops
the trailing excess voices (`voices.slice(maxVoices)`), in increasing
index order.  The array itself is never truncated. -/
def setComplexity (c : ℚ) (s : SynthPool) : SynthPool :=
  let newMax := (Int.ceil (5 * c)).toNat
  if newMax < s.maxVoices then
    { s with maxVoices := newMax,
             voices := s.voices.take newMax ++
               (s.voices.drop newMax).map stopVoice }
  else { s with maxVoices := newMax }

/-- A freshly initialized synthesizer pool. -/
def poolInit : SynthPool :=
  { voices := [], maxVoices := 5, isInitialized := true }

/-- Five voices started: the pool is full of playing voices. -/
def poolFive : SynthPool :=
  (startVoice 5 0 1 (startVoice 4 0 1 (startVoice 3 0 1
    (startVoice 2 0 1 (startVoice 1 0 1 poolInit).2).2).2).2).2

/-- After `setComplexity(0.6)`: capacity 3, trailing voices 3 and 4 stopped. -/
def poolShrunk : SynthPool := setComplexity (3/5) poolFive

/-- A sixth `startVoice` refills freed slot 3. -/
def poolRefillOne : SynthPool := (startVoice 6 0 1 poolShrunk).2

/-- A seventh `startVoice` refills freed slot 4. -/
def poolRefillTwo : SynthPool := (startVoice 7 0 1 poolRefillOne).2

/-- After `setComplexity(0.8)`: capacity 4, nothing stopped (not a shrink). -/
def poolGrown : SynthPool := setComplexity (4/5) poolRefillTwo

/-- Shorthand for a playing voice at `x = q`. -/
def pv (q : ℚ) : Voice := { playing := true, x := q, y := 0, intensity := 1 }

/-- Shorthand for a stopped voice at `x = q`. -/
def sv (q : ℚ) : Voice := { playing := false, x := q, y := 0, intensity := 1 }

/-! ## Overdub mixing (`LoopController.processOverdubRecording`) -/

/-- A decoded audio buffer: channel count, sample count per channel, and
the sample data (channel, index).  Values outside the bounds are
irrelevant to every statement below. -/
structure AudioBuffer where
  numberOfChannels : ℕ
  length : ℕ
  data : ℕ → ℕ → ℚ

/-- The JavaScript `%` operator on numbers (truncated division
remainder; the dividend here is nonnegative in every use). -/
def jsFmod (a b : ℚ) : ℚ :=
  a - b * (if 0 ≤ a / b then (⌊a / b⌋ : ℚ) else (⌈a / b⌉ : ℚ))

/-- Translation of `Math.round` (round half up), used only to state the original claim. -/
def jsRound (q : ℚ) : ℤ := ⌊q + 1/2⌋

/-- Computation `targetSamples = Math.floor(this.loopDuration * sampleRate)`. -/
def targetSamplesOf (loopDuration sampleRate : ℚ) : ℕ :=
  (⌊loopDuration * sampleRate⌋).toNat

/-- Computation `overdubStartSample = Math.floor(((overdubStartTime - playStartTime)
% loopDuration) * sampleRate)`. -/
def overdubStartSampleOf (loopDuration sampleRate odST pST : ℚ) : ℕ :=
  (⌊jsFmod (odST - pST) loopDuration * sampleRate⌋).toNat

/-- The overdub write loop: processing samples `i = 0 .. n-1` in order,
each writes `clamp(-1, 1, buf[(start + i) % T] + overdub[i] * 0.6)` at
the wrapped index. -/
def overdubPass (od : ℕ → ℚ) (startSample T : ℕ) :
    ℕ → (ℕ → ℚ) → (ℕ → ℚ)
  | 0, buf => buf
  | n + 1, buf =>
      let prev := overdubPass od startSample T n buf
      let tgt := (startSample + n) % T
      fun j => if j = tgt then clampSample (prev tgt + od n * (3/5))
               else prev j

/-- Translation of the `LoopController.processOverdubRecording` mixing step: allocates a
buffer of `max` channels and `targetSamples` samples, copies the
original loop (zero elsewhere, as `createBuffer` zero-fills), then runs
the wrapped additive overdub pass on each channel the overdub has. -/
def mixOverdub (loopDuration sampleRate odST pST : ℚ)
    (original overdub : AudioBuffer) : AudioBuffer :=
  let targetSamples := targetSamplesOf loopDuration sampleRate
  let overdubStartSample :=
    overdubStartSampleOf loopDuration sampleRate odST pST
  { numberOfChannels :=
      max original.numberOfChannels overdub.numberOfChannels
    length := targetSamples
    data := fun channel =>
      let copied : ℕ → ℚ := fun i =>
        if channel < original.numberOfChannels ∧
            i < min original.length targetSamples
        then original.data channel i else 0
      if channel < overdub.numberOfChannels then
        overdubPass (overdub.data channel) overdubStartSample
          targetSamples overdub.length copied
      else copied }

/-- Spec-side description of step (3) of the claim: the value of the
result buffer right after the verbatim copy of the existing loop. -/
def specCopied (original : AudioBuffer) (targetSamples channel i : ℕ) :
    ℚ :=
  if channel < original.numberOfChannels ∧
      i < min original.length targetSamples
  then original.data channel i else 0

/-- Spec-side description of step (4): the overdub sample indices `i`
that land on result index `j` under the wraparound indexing, in
processing order. -/
def hitIndices (startSample T len j : ℕ) : List ℕ :=
  (List.range len).filter (fun i => decide ((startSample + i) % T = j))

/-- Spec-side description of the clamped additive layering of a list of
overdub samples onto one result sample. -/
def layerFold (od : ℕ → ℚ) (base : ℚ) (l : List ℕ) : ℚ :=
  l.foldl (fun acc i => clampSample (acc + od i * (3/5))) base

/-- An all-zero single-channel loop buffer of 2 samples. -/
def shortLoopBuffer : AudioBuffer :=
  { numberOfChannels := 1, length := 2, data := fun _ _ => 0 }

/-- An all-zero single-channel overdub clip of 1 sample. -/
def shortOverdubBuffer : AudioBuffer :=
  { numberOfChannels := 1, length := 1, data := fun _ _ => 0 }

/-- An all-zero single-channel 4-sample loop buffer (one loop cycle at
`loopDuration = 2`, `sampleRate = 2`). -/
def zeroLoopBuffer : AudioBuffer :=
  { numberOfChannels := 1, length := 4, data := fun _ _ => 0 }

/-- A constant-1 single-channel 8-sample overdub clip: exactly two loop
cycles. -/
def fullOverdubBuffer : AudioBuffer :=
  { numberOfChannels := 1, length := 8, data := fun _ _ => 1 }

/-! ## Claim C4: loop duration commit -/

/-- Claim C4: when `stopRecording()` ends a New recording (no loop buffer
exists yet), the committed `loopDuration` equals
`clamp(elapsed, 0.1, maxLoopDuration)` with `maxLoopDuration = 30`; in
particular an elapsed `t` with `0 < t < 0.1` commits exactly `0.1`,
`t > 30` commits exactly `30`, and `t = 5` commits `5`; ending an
Overdub recording (a loop buffer exists) never recomputes the duration. -/
theorem stopRecording_duration_commit (s : LoopState) (now : ℚ)
    (hrec : s.isRecording = true) :
    (s.hasBuffer = false →
      (stopRecording now s).2.loopDuration =
        min maxLoopDuration (max (1/10) (now - s.recordStartTime))) ∧
    (s.hasBuffer = false → 0 < now - s.recordStartTime →
      now - s.recordStartTime < 1/10 →
      (stopRecording now s).2.loopDuration = 1/10) ∧
    (s.hasBuffer = false → maxLoopDuration < now - s.recordStartTime →
      (stopRecording now s).2.loopDuration = maxLoopDuration) ∧
    (s.hasBuffer = false → now - s.recordStartTime = 5 →
      (stopRecording now s).2.loopDuration = 5) ∧
    (s.hasBuffer = true →
      (stopRecording now s).2.loopDuration = s.loopDuration) := by
  unfold stopRecording maxLoopDuration
  rw [hrec]
  refine ⟨?_, ?_, ?_, ?_, ?_⟩ <;> intro hbuf
  · simp only [hbuf]
    rw [min_def, max_def]
    split_ifs <;> (try simp_all) <;> linarith
  · intro h0 hsmall
    simp only [hbuf]
    split_ifs with h1 h2 h3 h4 <;> simp_all <;> linarith
  · intro hbig
    simp only [hbuf]
    split_ifs with h1 h2 h3 h4 <;> simp_all <;> linarith
  · intro h5
    simp only [hbuf]
    rw [h5]
    norm_num
  · simp [hbuf]

/-- Witness for C4: a concrete New recording of elapsed time 5 seconds
commits exactly 5. -/
theorem stopRecording_duration_commit_witness :
    (stopRecording 5
      { isRecording := true, isPlaying := false, hasBuffer := false,
        loopDuration := 0, recordStartTime := 0, playStartTime := 0,
        volume := 4/5 }).2.loopDuration = 5 :=
  (stopRecording_duration_commit
    { isRecording := true, isPlaying := false, hasBuffer := false,
      loopDuration := 0, recordStartTime := 0, playStartTime := 0,
      volume := 4/5 } 5 rfl).2.2.2.1 rfl (by norm_num)

/-! ## Claim C8: clear resets and is idempotent -/

/-- Claim C8: from any loop-engine state, `clear()` succeeds and leaves
`getState()` equal to `{isRecording := false, isPlaying := false,
hasLoop := false, duration := 0}` (volume untouched), and a second
`clear()` succeeds and leaves exactly the same state. -/
theorem clear_resets_and_idempotent (s : LoopState) (now nowLater : ℚ) :
    (clear now s).1 = true ∧
    getState (clear now s).2 =
      { isRecording := false, isPlaying := false, hasLoop := false,
        duration := 0, volume := s.volume } ∧
    clear nowLater (clear now s).2 = (true, (clear now s).2) := by
  obtain ⟨rec, play, buf, dur, rst, pst, vol⟩ := s
  refine ⟨rfl, ?_, ?_⟩
  · cases rec <;> cases play <;> cases buf <;>
      simp [clear, stopRecording, stopPlayback, getState]
  · cases rec <;> cases play <;> cases buf <;>
      simp [clear, stopRecording, stopPlayback]

/-! ## Claim C9: parameter-to-effect mapping table (in-range values) -/

/-- Claim C9: for each of the five parameter names and any `v ∈ [0,1]`,
`setParameter` stores `v` (the clamp is the identity there) and, with the
effect nodes ready, re-derives the mapped effect fields: GRIME gives
drive `20+200v`, wet `v`, dry `1-v`; FLOW gives delay time
`(50+450v)/1000` seconds, level `0.8v`, feedback `0.85v`; SHIMMER gives
chorus level `0.8v` and depth `0.01v`; DEPTH gives reverb level `0.5v`;
OCTAVE changes no effect-chain state. -/
theorem setParameter_mapping_table (s : SynthFx) (v : ℚ)
    (h0 : 0 ≤ v) (h1 : v ≤ 1) (hn : s.nodesReady = true) :
    (∀ name, getParameter name (setParameter name v s) = v) ∧
    ((setParameter .grime v s).fx.distortionDrive = 20 + 200 * v ∧
     (setParameter .grime v s).fx.distortionWet = v ∧
     (setParameter .grime v s).fx.distortionDry = 1 - v) ∧
    ((setParameter .flow v s).fx.delayTime = (50 + 450 * v) / 1000 ∧
     (setParameter .flow v s).fx.delayLevel = (4/5) * v ∧
     (setParameter .flow v s).fx.delayFeedback = (17/20) * v) ∧
    ((setParameter .shimmer v s).fx.chorusLevel = (4/5) * v ∧
     (setParameter .shimmer v s).fx.chorusDepth = (1/100) * v) ∧
    (setParameter .depth v s).fx.reverbLevel = (1/2) * v ∧
    (setParameter .octave v s).fx = s.fx := by
  have hcl : clamp01 v = v := by
    unfold clamp01
    rw [min_eq_right h1, max_eq_right h0]
  refine ⟨?_, ?_, ?_, ?_, ?_, ?_⟩
  · intro name
    cases name <;>
      simp [setParameter, getParameter, Params.get, Params.put, hn, hcl]
  · refine ⟨?_, ?_, ?_⟩ <;> simp [setParameter, hn] <;> ring
  · refine ⟨?_, ?_, ?_⟩ <;> simp [setParameter, hn] <;> ring
  · refine ⟨?_, ?_⟩ <;> simp [setParameter, hn] <;> ring
  · simp [setParameter, hn]; ring
  · simp [setParameter, hn]

/-- Witness for C9 at `v = 1/2` on a concrete ready state. -/
theorem setParameter_mapping_table_witness :
    (∀ name, getParameter name
        (setParameter name (1/2) defaultSynthFx) = 1/2) ∧
    ((setParameter .grime (1/2) defaultSynthFx).fx.distortionDrive
        = 20 + 200 * (1/2) ∧
     (setParameter .grime (1/2) defaultSynthFx).fx.distortionWet = 1/2 ∧
     (setParameter .grime (1/2) defaultSynthFx).fx.distortionDry
        = 1 - 1/2) ∧
    ((setParameter .flow (1/2) defaultSynthFx).fx.delayTime
        = (50 + 450 * (1/2)) / 1000 ∧
     (setParameter .flow (1/2) defaultSynthFx).fx.delayLevel
        = (4/5) * (1/2) ∧
     (setParameter .flow (1/2) defaultSynthFx).fx.delayFeedback
        = (17/20) * (1/2)) ∧
    ((setParameter .shimmer (1/2) defaultSynthFx).fx.chorusLevel
        = (4/5) * (1/2) ∧
     (setParameter .shimmer (1/2) defaultSynthFx).fx.chorusDepth
        = (1/100) * (1/2)) ∧
    (setParameter .depth (1/2) defaultSynthFx).fx.reverbLevel
        = (1/2) * (1/2) ∧
    (setParameter .octave (1/2) defaultSynthFx).fx = defaultSynthFx.fx :=
  setParameter_mapping_table defaultSynthFx (1/2)
    (by norm_num) (by norm_num) rfl

/-! ## Claim C10: out-of-range inputs — stored value clamped, applied
effect values derived from the raw input -/

/-- The stored clamp always lands in `[0,1]`. -/
theorem clamp01_bounds (v : ℚ) : 0 ≤ clamp01 v ∧ clamp01 v ≤ 1 := by
  unfold clamp01
  constructor
  · exact le_max_left 0 (min 1 v)
  · exact max_le (by norm_num) (min_le_left 1 v)

/-- Claim C10: for any real input `v`, `setParameter(name, v)` stores only
the clamped value `min(1, max(0, v))`, so `getParameter(name)` is always
in `[0,1]`; but the derived effect settings are computed from the raw
unclamped `v` (shown for GRIME: drive `20+200v`, wet `v`, dry `1-v`), so
an input with `v > 1` or `v < 0` produces applied values strictly outside
the range `[20,220] × [0,1] × [0,1]` reachable from any in-range input. -/
theorem setParameter_raw_effect_values (s : SynthFx) (v : ℚ)
    (hn : s.nodesReady = true) :
    (∀ name, getParameter name (setParameter name v s) = clamp01 v ∧
       0 ≤ getParameter name (setParameter name v s) ∧
       getParameter name (setParameter name v s) ≤ 1) ∧
    ((setParameter .grime v s).fx.distortionDrive = 20 + 200 * v ∧
     (setParameter .grime v s).fx.distortionWet = v ∧
     (setParameter .grime v s).fx.distortionDry = 1 - v) ∧
    (1 < v →
       220 < (setParameter .grime v s).fx.distortionDrive ∧
       1 < (setParameter .grime v s).fx.distortionWet ∧
       (setParameter .grime v s).fx.distortionDry < 0) ∧
    (v < 0 →
       (setParameter .grime v s).fx.distortionDrive < 20 ∧
       (setParameter .grime v s).fx.distortionWet < 0 ∧
       1 < (setParameter .grime v s).fx.distortionDry) ∧
    (∀ w : ℚ, 0 ≤ w → w ≤ 1 →
       20 ≤ (setParameter .grime w s).fx.distortionDrive ∧
       (setParameter .grime w s).fx.distortionDrive ≤ 220 ∧
       0 ≤ (setParameter .grime w s).fx.distortionWet ∧
       (setParameter .grime w s).fx.distortionWet ≤ 1 ∧
       0 ≤ (setParameter .grime w s).fx.distortionDry ∧
       (setParameter .grime w s).fx.distortionDry ≤ 1) := by
  refine ⟨?_, ?_, ?_, ?_, ?_⟩
  · intro name
    refine ⟨?_, ?_⟩
    · cases name <;>
        simp [setParameter, getParameter, Params.get, Params.put, hn]
    · cases name <;>
        simp only [setParameter, getParameter, hn] <;>
        simp [Params.get, Params.put] <;>
        exact ⟨(clamp01_bounds v).1, (clamp01_bounds v).2⟩
  · refine ⟨?_, ?_, ?_⟩ <;> simp [setParameter, hn] <;> ring
  · intro hv
    refine ⟨?_, ?_, ?_⟩ <;> simp [setParameter, hn] <;> linarith
  · intro hv
    refine ⟨?_, ?_, ?_⟩ <;> simp [setParameter, hn] <;> linarith
  · intro w hw0 hw1
    refine ⟨?_, ?_, ?_, ?_, ?_, ?_⟩ <;> simp [setParameter, hn] <;>
      linarith

/-- Witness for C10 at the out-of-range input `v = 2`. -/
theorem setParameter_raw_effect_values_witness :
    getParameter .grime (setParameter .grime 2 defaultSynthFx)
        = clamp01 2 ∧
    (setParameter .grime 2 defaultSynthFx).fx.distortionDrive
        = 20 + 200 * 2 ∧
    220 < (setParameter .grime 2 defaultSynthFx).fx.distortionDrive :=
  ⟨((setParameter_raw_effect_values defaultSynthFx 2 rfl).1 .grime).1,
   ((setParameter_raw_effect_values defaultSynthFx 2 rfl).2.1).1,
   ((setParameter_raw_effect_values defaultSynthFx 2 rfl).2.2.1
      (by norm_num)).1⟩

/-- Loop invariant of the closest-step scan: the kept index is within the
scanned range, the kept distance is the distance of the kept index, it is
minimal among all scanned steps, and every strictly earlier step is at a
strictly larger distance. -/
theorem closestStepAux_spec (v : ℚ) (n : ℕ) :
    (closestStepAux v n).1 ≤ n ∧
    (closestStepAux v n).2 =
      |v - octaveSteps.getD (closestStepAux v n).1 0| ∧
    (∀ j, j ≤ n →
      (closestStepAux v n).2 ≤ |v - octaveSteps.getD j 0|) ∧
    (∀ j, j < (closestStepAux v n).1 →
      (closestStepAux v n).2 < |v - octaveSteps.getD j 0|) := by
  induction n with
  | zero =>
      refine ⟨le_refl 0, rfl, ?_, ?_⟩
      · intro j hj
        have : j = 0 := Nat.le_zero.mp hj
        subst this
        exact le_refl _
      · intro j hj
        exact absurd hj (Nat.not_lt_zero j)
  | succ n ih =>
      obtain ⟨h1, h2, h3, h4⟩ := ih
      have hstep : closestStepAux v (n + 1) =
          if |v - octaveSteps.getD (n + 1) 0| < (closestStepAux v n).2
          then (n + 1, |v - octaveSteps.getD (n + 1) 0|)
          else closestStepAux v n := rfl
      rw [hstep]
      split_ifs with hd
      · refine ⟨le_refl _, rfl, ?_, ?_⟩
        · intro j hj
          rcases Nat.lt_succ_iff_lt_or_eq.mp (Nat.lt_succ_of_le hj)
            with hj' | hj'
          · exact le_of_lt (lt_of_lt_of_le hd (h3 j (Nat.lt_succ_iff.mp
              hj')))
          · subst hj'
            exact le_refl _
        · intro j hj
          exact lt_of_lt_of_le hd (h3 j (Nat.lt_succ_iff.mp hj))
      · refine ⟨Nat.le_succ_of_le h1, h2, ?_, h4⟩
        intro j hj
        rcases Nat.lt_succ_iff_lt_or_eq.mp (Nat.lt_succ_of_le hj)
          with hj' | hj'
        · exact h3 j (Nat.lt_succ_iff.mp hj')
        · subst hj'
          exact not_lt.mp hd

/-! ## Claim C7: octave quantization -/

/-- Claim C7: for any octave parameter value, the quantized index is one
of the 7 anchors, the chosen anchor is at minimal distance, ties are
broken in favor of the first minimal distance found in scan order, the
chosen anchor's octave offset times 12 is one of the semitone offsets
`{-24,-12,-6,0,6,12,24}`, and the quantization is idempotent on the
anchors themselves. -/
theorem quantizeOctave_nearest_first_idempotent (v : ℚ) :
    quantizeOctaveIndex v < 7 ∧
    (∀ j, j < 7 →
      |v - octaveSteps.getD (quantizeOctaveIndex v) 0| ≤
        |v - octaveSteps.getD j 0|) ∧
    (∀ j, j < quantizeOctaveIndex v →
      |v - octaveSteps.getD (quantizeOctaveIndex v) 0| <
        |v - octaveSteps.getD j 0|) ∧
    12 * octaveRanges.getD (quantizeOctaveIndex v) 0 ∈
      ([-24, -12, -6, 0, 6, 12, 24] : List ℚ) ∧
    (∀ i, i < 7 → quantizeOctaveIndex (octaveSteps.getD i 0) = i) := by
  obtain ⟨h1, h2, h3, h4⟩ := closestStepAux_spec v 6
  refine ⟨Nat.lt_succ_of_le h1, ?_, ?_, ?_, ?_⟩
  · intro j hj
    have := h3 j (Nat.lt_succ_iff.mp hj)
    rw [h2] at this
    exact this
  · intro j hj
    have := h4 j hj
    rw [h2] at this
    exact this
  · have hlt : quantizeOctaveIndex v < 7 := Nat.lt_succ_of_le h1
    interval_cases h : quantizeOctaveIndex v <;>
      norm_num [octaveRanges]
  · intro i hi
    obtain ⟨g1, g2, g3, g4⟩ := closestStepAux_spec (octaveSteps.getD i 0) 6
    have hq : quantizeOctaveIndex (octaveSteps.getD i 0) =
        (closestStepAux (octaveSteps.getD i 0) 6).1 := rfl
    have hzero : (closestStepAux (octaveSteps.getD i 0) 6).2 = 0 := by
      have hle := g3 i (Nat.lt_succ_iff.mp hi)
      rw [sub_self, abs_zero] at hle
      exact le_antisymm hle (g2 ▸ abs_nonneg _)
    have heqsteps : octaveSteps.getD
        ((closestStepAux (octaveSteps.getD i 0) 6).1) 0 =
        octaveSteps.getD i 0 := by
      have h5 := g2
      rw [hzero] at h5
      have h6 := h5.symm
      rw [abs_eq_zero, sub_eq_zero] at h6
      exact h6.symm
    have hlen : octaveSteps.length = 7 := rfl
    have hnd : octaveSteps.Nodup := by norm_num [octaveSteps]
    have hlt1 : (closestStepAux (octaveSteps.getD i 0) 6).1 <
        octaveSteps.length := by
      rw [hlen]
      exact Nat.lt_succ_of_le g1
    have hlt2 : i < octaveSteps.length := by
      rw [hlen]
      exact hi
    have hels : octaveSteps.get
        ⟨(closestStepAux (octaveSteps.getD i 0) 6).1, hlt1⟩ =
        octaveSteps.get ⟨i, hlt2⟩ := by
      rw [List.get_eq_getElem, List.get_eq_getElem,
        ← List.getD_eq_getElem octaveSteps 0 hlt1,
        ← List.getD_eq_getElem octaveSteps 0 hlt2]
      exact heqsteps
    have hfin := (List.Nodup.get_inj_iff hnd).mp hels
    rw [hq]
    exact congrArg Fin.val hfin

/-- Witness for C7: the chosen anchor for `v = 1/4` is at minimal
distance from step index 1. -/
theorem quantizeOctave_nearest_witness :
    |(1/4 : ℚ) - octaveSteps.getD (quantizeOctaveIndex (1/4)) 0| ≤
      |(1/4 : ℚ) - octaveSteps.getD 1 0| :=
  (quantizeOctave_nearest_first_idempotent (1/4)).2.1 1 (by norm_num)

/-- Claim C2 fails at the endpoint `x = 1` (with `y = 0` and the default
octave parameter `0.45`): `Math.floor(1 * 5) = 5` indexes past the
5-element pentatonic array, so the frequency is `NaN` (modelled `none`),
not a strictly positive value. -/
theorem positionToFrequency_x_one_counterexample :
    (0 ≤ (1 : ℚ) ∧ (1 : ℚ) ≤ 1 ∧ 0 ≤ (0 : ℚ) ∧ (0 : ℚ) ≤ 1) ∧
    semitonesFromC0 1 0 (9/20) = none ∧
    positionToFrequency 1 0 (9/20) = none := by
  have hfive : ((1 : ℚ) * 5) = ((5 : ℤ) : ℚ) := by norm_num
  have hfl : ⌊(1 : ℚ) * 5⌋ = 5 := by
    rw [hfive, Int.floor_intCast]
  have hsem : semitonesFromC0 1 0 (9/20) = none := by
    rw [semitonesFromC0]
    simp only [hfl]
    norm_num
  refine ⟨by norm_num, hsem, ?_⟩
  rw [positionToFrequency, hsem]
  rfl

/-- The map from semitone counts to frequencies is injective (the base-2
exponential is strictly monotone). -/
theorem freqOfSemitone_injective :
    Function.Injective
      (fun s : ℤ => (1635/100 : ℝ) * (2 : ℝ) ^ ((s : ℝ) / 12)) := by
  intro a b hab
  simp only at hab
  have hc : (1635/100 : ℝ) ≠ 0 := by norm_num
  have h2 : (2:ℝ) ^ ((a:ℝ)/12) = (2:ℝ) ^ ((b:ℝ)/12) :=
    mul_left_cancel₀ hc hab
  have hmono : StrictMono (fun r : ℝ => (2:ℝ) ^ r) :=
    fun u v huv => (Real.rpow_lt_rpow_left_iff one_lt_two).mpr huv
  have hdiv : (a:ℝ)/12 = (b:ℝ)/12 := hmono.injective h2
  field_simp at hdiv
  exact hdiv

/-- For a pitch-class index in range, the rational pentatonic interval is
the cast of the integer one. -/
theorem penta_cast (i : ℕ) (h : i < 5) :
    pentatonicIntervals.getD i 0 =
      ((pentatonicSemitones.getD i 0 : ℤ) : ℚ) := by
  interval_cases i <;>
    norm_num [pentatonicIntervals, pentatonicSemitones]

/-- For an anchor index in range, twelve times the rational octave offset
is the cast of the integer semitone offset. -/
theorem ranges_cast (j : ℕ) (h : j < 7) :
    octaveRanges.getD j 0 * 12 =
      ((octaveSemitoneOffsets.getD j 0 : ℤ) : ℚ) := by
  interval_cases j <;>
    norm_num [octaveRanges, octaveSemitoneOffsets]

/-- Claim C2 (amended): for `x ∈ [0,1)`, `y ∈ [0,1)` and any octave
parameter, the frequency is defined, strictly positive, and one of
exactly 45 distinct values.  (The 5 pitch classes × 2 octave bands × 7
anchors give 70 combinations, but the band and anchor semitone offsets
overlap, leaving 45 distinct frequencies; and at the endpoints `x = 1`
or `y = 1` the claim's original statement fails.) -/
theorem positionToFrequency_positive_45_values :
    (∀ x y p : ℚ, 0 ≤ x → x < 1 → 0 ≤ y → y < 1 →
      ∃ f : ℝ, positionToFrequency x y p = some f ∧ 0 < f ∧
        f ∈ frequencyValueSet) ∧
    frequencyValueSet.ncard = 45 := by
  constructor
  · intro x y p hx0 hx1 hy0 hy1
    have hsi0 : (0:ℤ) ≤ ⌊x * 5⌋ :=
      Int.floor_nonneg.mpr (mul_nonneg hx0 (by norm_num))
    have hsi5 : ⌊x * 5⌋ < 5 := by
      refine Int.floor_lt.mpr ?_
      push_cast
      nlinarith
    have hk0 : (0:ℤ) ≤ ⌊y * 2⌋ :=
      Int.floor_nonneg.mpr (mul_nonneg hy0 (by norm_num))
    have hk2 : ⌊y * 2⌋ < 2 := by
      refine Int.floor_lt.mpr ?_
      push_cast
      nlinarith
    have hi5 : (⌊x * 5⌋).toNat < 5 := by omega
    have hk : (⌊y * 2⌋).toNat < 2 := by omega
    have hq7 : quantizeOctaveIndex p < 7 :=
      Nat.lt_succ_of_le (closestStepAux_spec p 6).1
    have hkq : ((⌊y * 2⌋ : ℤ) : ℚ) = (((⌊y * 2⌋).toNat : ℕ) : ℚ) := by
      exact_mod_cast (congrArg (Int.cast : ℤ → ℚ)
        (Int.toNat_of_nonneg hk0)).symm
    have hsem : semitonesFromC0 x y p =
        some ((pentatonicSemitones.getD (⌊x * 5⌋).toNat 0 +
          12 * ((⌊y * 2⌋).toNat : ℤ) + 24 +
          octaveSemitoneOffsets.getD (quantizeOctaveIndex p) 0 : ℤ) :
            ℚ) := by
      simp only [semitonesFromC0]
      rw [if_pos ⟨hsi0, hsi5⟩]
      congr 1
      rw [penta_cast (⌊x * 5⌋).toNat hi5]
      have hr := ranges_cast (quantizeOctaveIndex p) hq7
      push_cast
      push_cast at hkq
      linear_combination 12 * hkq + hr
    refine ⟨(1635/100 : ℝ) * (2 : ℝ) ^
        (((pentatonicSemitones.getD (⌊x * 5⌋).toNat 0 +
          12 * ((⌊y * 2⌋).toNat : ℤ) + 24 +
          octaveSemitoneOffsets.getD (quantizeOctaveIndex p) 0 : ℤ) : ℝ)
            / 12), ?_, ?_, ?_⟩
    · rw [positionToFrequency, hsem, Option.map_some']
      norm_cast
    · positivity
    · refine ⟨(pentatonicSemitones.getD (⌊x * 5⌋).toNat 0 +
        12 * ((⌊y * 2⌋).toNat : ℤ) + 24 +
        octaveSemitoneOffsets.getD (quantizeOctaveIndex p) 0 : ℤ),
        ?_, rfl⟩
      refine Finset.mem_coe.mpr (Finset.mem_image.mpr
        ⟨(⟨(⌊x * 5⌋).toNat, hi5⟩, ⟨(⌊y * 2⌋).toNat, hk⟩,
          ⟨quantizeOctaveIndex p, hq7⟩), Finset.mem_univ _, rfl⟩)
  · have h1 : frequencyValueSet.ncard =
        (semitoneValueSet : Set ℤ).ncard :=
      Set.ncard_image_of_injective _ freqOfSemitone_injective
    rw [h1, Set.ncard_coe_Finset]
    decide

/-- Witness for C2 (amended) at `x = 1/2`, `y = 1/2`, `p = 9/20`. -/
theorem positionToFrequency_positive_45_values_witness :
    ∃ f : ℝ, positionToFrequency (1/2) (1/2) (9/20) = some f ∧
      0 < f ∧ f ∈ frequencyValueSet :=
  positionToFrequency_positive_45_values.1 (1/2) (1/2) (9/20)
    (by norm_num) (by norm_num) (by norm_num) (by norm_num)

/-- A stopped voice is not playing. -/
theorem stopVoice_not_playing (v : Voice) :
    (stopVoice v).playing = false := by
  unfold stopVoice
  split_ifs with h
  · exact h
  · rfl

/-- If no voice in the pool is free, the scan runs off the end. -/
theorem findIdx_all_playing (l : List Voice)
    (h : ∀ v ∈ l, v.playing = true) :
    l.findIdx (fun v => !v.playing) = l.length := by
  induction l with
  | nil => rfl
  | cons a t ih =>
      rw [List.findIdx_cons, h a (by simp)]
      simp [ih fun v hv => h v (by simp [hv])]

/-! ## Claim C5 (amended): voice stealing -/

/-- Claim C5 (amended): `startVoice` returns `null` exactly when the
engine is not initialized; when the pool is full (`length = maxVoices`,
all slots playing, `maxVoices > 0`) it steals slot 0 — the new voices
array is the old one with slot 0 replaced by the new playing voice — so
exactly one prior voice is silenced and the playing count stays equal to
`maxVoices`.  (The original claim's clause that the playing count can
never exceed `maxVoices` is dropped: after `setComplexity` shrinks the
capacity, `startVoice` refills the freed trailing slots, see the
counterexample.) -/
theorem startVoice_null_iff_and_steal (x y intensity : ℚ)
    (s : SynthPool) :
    ((startVoice x y intensity s).1 = none ↔
      s.isInitialized = false) ∧
    (s.isInitialized = true →
     s.voices.length = s.maxVoices →
     0 < s.maxVoices →
     (∀ v ∈ s.voices, v.playing = true) →
      (startVoice x y intensity s).2.voices =
        s.voices.set 0
          { playing := true, x := x, y := y, intensity := intensity } ∧
      playingCount (startVoice x y intensity s).2 = s.maxVoices ∧
      (startVoice x y intensity s).2.maxVoices = s.maxVoices) := by
  constructor
  · by_cases hinit : s.isInitialized = false
    · simp [startVoice, hinit]
    · simp [startVoice, hinit]
  · intro hinit hlen hmax hall
    have hfind : s.voices.findIdx (fun v => !v.playing) =
        s.voices.length := findIdx_all_playing s.voices hall
    have hinit' : (s.isInitialized = false) = False := by
      simp [hinit]
    have hv : (startVoice x y intensity s).2.voices =
        setOrAppend s.voices 0
          { playing := true, x := x, y := y, intensity := intensity } := by
      rw [startVoice]
      rw [if_neg (by simp [hinit])]
      simp only [hfind, lt_irrefl, if_false, hlen]
    obtain ⟨v0, t, hvt⟩ : ∃ v0 t, s.voices = v0 :: t := by
      cases hcons : s.voices with
      | nil =>
          rw [hcons] at hlen
          simp at hlen
          omega
      | cons a t => exact ⟨a, t, rfl⟩
    have hset : setOrAppend s.voices 0
        { playing := true, x := x, y := y, intensity := intensity } =
        s.voices.set 0
          { playing := true, x := x, y := y, intensity := intensity } := by
      rw [setOrAppend, if_pos]
      rw [hvt]
      simp
    refine ⟨hv.trans hset, ?_, ?_⟩
    · rw [playingCount, hv, hset, hvt]
      simp only [List.set_cons_zero]
      rw [List.countP_cons_of_pos _ _ (by simp)]
      have hallt : t.countP (fun v => v.playing) = t.length :=
        List.countP_eq_length.mpr fun v hv' => by
          simpa using hall v (by rw [hvt]; simp [hv'])
      rw [hallt]
      have hlen' : (v0 :: t).length = s.maxVoices := by
        rw [← hvt]
        exact hlen
      simpa using hlen'
    · rw [startVoice, if_neg (by simp [hinit])]

/-- Witness for C5 (amended): a full 2-voice pool steals slot 0. -/
theorem startVoice_null_iff_and_steal_witness :
    playingCount (startVoice 1 1 1
      { voices := [{ playing := true, x := 0, y := 0, intensity := 1 },
                   { playing := true, x := 1, y := 0, intensity := 1 }],
        maxVoices := 2, isInitialized := true }).2 = 2 :=
  ((startVoice_null_iff_and_steal 1 1 1
      { voices := [{ playing := true, x := 0, y := 0, intensity := 1 },
                   { playing := true, x := 1, y := 0, intensity := 1 }],
        maxVoices := 2, isInitialized := true }).2
    rfl rfl (by norm_num) (by
      intro v hv
      simp at hv
      rcases hv with h | h <;> rw [h])).2.1

/-! ## Reachable states violating the "never exceeds max" clauses -/

/-- Evaluating `Math.ceil(5 * 0.6)` (exact arithmetic). -/
theorem ceil_five_mul_three_fifths :
    (Int.ceil ((5:ℚ) * (3/5))).toNat = 3 := by
  rw [show ((5:ℚ) * (3/5)) = ((3:ℤ):ℚ) by norm_num, Int.ceil_intCast]
  rfl

/-- Evaluating `Math.ceil(5 * 0.8)` (exact arithmetic). -/
theorem ceil_five_mul_four_fifths :
    (Int.ceil ((5:ℚ) * (4/5))).toNat = 4 := by
  rw [show ((5:ℚ) * (4/5)) = ((4:ℤ):ℚ) by norm_num, Int.ceil_intCast]
  rfl

/-- The state after the shrink, computed. -/
theorem poolShrunk_eq : poolShrunk =
    { voices := [pv 1, pv 2, pv 3, sv 4, sv 5],
      maxVoices := 3, isInitialized := true } := by
  simp only [poolShrunk, setComplexity]
  rw [ceil_five_mul_three_fifths]
  decide

/-- Claim C5 is violated on a reachable state: after
`setComplexity(0.6)` stopped slots 3 and 4, the very next `startVoice`
refills slot 3, leaving 4 playing voices while the configured max is 3 —
the playing count exceeds the configured max right after a `startVoice`. -/
theorem startVoice_exceeds_max_counterexample :
    poolRefillOne.maxVoices = 3 ∧ playingCount poolRefillOne = 4 := by
  have h1 : poolRefillOne = (startVoice 6 0 1 poolShrunk).2 := rfl
  rw [h1, poolShrunk_eq]
  decide

/-! ## Claim C6 (amended): setComplexity resizing -/

/-- Claim C6 (amended): `setComplexity(c)` always sets the configured
max to `ceil(5c)`; when this shrinks the capacity, every voice at index
`≥ ceil(5c)` is released (in increasing index order, as in the source's
`slice`/`forEach`), so the playing count immediately afterwards is at
most `ceil(5c)`; when the capacity does not shrink, the voices are left
untouched — so a playing count already above `ceil(5c)` (reachable after
an earlier shrink followed by `startVoice` refills) persists, and the
original unconditional bound fails. -/
theorem setComplexity_resize (c : ℚ) (s : SynthPool) :
    (setComplexity c s).maxVoices = (Int.ceil (5 * c)).toNat ∧
    ((Int.ceil (5 * c)).toNat < s.maxVoices →
      (setComplexity c s).voices =
        s.voices.take ((Int.ceil (5 * c)).toNat) ++
          (s.voices.drop ((Int.ceil (5 * c)).toNat)).map stopVoice ∧
      playingCount (setComplexity c s) ≤ (Int.ceil (5 * c)).toNat) ∧
    (s.maxVoices ≤ (Int.ceil (5 * c)).toNat →
      (setComplexity c s).voices = s.voices) := by
  by_cases h : (Int.ceil (5 * c)).toNat < s.maxVoices
  · refine ⟨by simp [setComplexity, h], fun _ => ⟨?_, ?_⟩,
      fun hle => absurd h (not_lt.mpr hle)⟩
    · simp [setComplexity, h]
    · rw [playingCount]
      simp only [setComplexity, if_pos h]
      rw [List.countP_append]
      have hz : ((s.voices.drop ((Int.ceil (5 * c)).toNat)).map
          stopVoice).countP (fun v => v.playing) = 0 := by
        refine List.countP_eq_zero.mpr ?_
        intro a ha
        rw [List.mem_map] at ha
        obtain ⟨b, _, hb⟩ := ha
        simp [← hb, stopVoice_not_playing]
      rw [hz, Nat.add_zero]
      refine le_trans (List.countP_le_length _) ?_
      rw [List.length_take]
      exact min_le_left _ _
  · refine ⟨by simp [setComplexity, h], fun hlt => absurd hlt h,
      fun _ => by simp [setComplexity, h]⟩

/-- Witness for C6 (amended): a concrete shrink from capacity 2 to 1
stops the trailing voice and the playing count is at most 1. -/
theorem setComplexity_resize_witness :
    playingCount (setComplexity (1/5)
      { voices := [pv 1, pv 2], maxVoices := 2,
        isInitialized := true }) ≤
      (Int.ceil ((5:ℚ) * (1/5))).toNat :=
  ((setComplexity_resize (1/5)
      { voices := [pv 1, pv 2], maxVoices := 2,
        isInitialized := true }).2.1
    (by
      rw [show ((5:ℚ) * (1/5)) = ((1:ℤ):ℚ) by norm_num,
        Int.ceil_intCast]
      decide)).2

/-- Claim C6 is violated on a reachable state: with 5 playing voices and
a configured max of 3 (after an earlier shrink and two refills),
`setComplexity(0.8)` sets the max to `ceil(5*0.8) = 4` without stopping
anything, and an immediate query of the playing count yields 5 > 4. -/
theorem setComplexity_count_counterexample :
    (0 ≤ (4/5 : ℚ) ∧ (4/5 : ℚ) ≤ 1) ∧
    (Int.ceil ((5:ℚ) * (4/5))).toNat = 4 ∧
    poolGrown.maxVoices = 4 ∧
    playingCount poolGrown = 5 := by
  have hrt : poolRefillTwo =
      { voices := [pv 1, pv 2, pv 3, pv 6, pv 7],
        maxVoices := 3, isInitialized := true } := by
    have h1 : poolRefillTwo = (startVoice 7 0 1
      (startVoice 6 0 1 poolShrunk).2).2 := rfl
    rw [h1, poolShrunk_eq]
    decide
  have hg : poolGrown =
      { voices := [pv 1, pv 2, pv 3, pv 6, pv 7],
        maxVoices := 4, isInitialized := true } := by
    simp only [poolGrown, setComplexity]
    rw [hrt, ceil_five_mul_four_fifths]
    decide
  refine ⟨by norm_num, ceil_five_mul_four_fifths, ?_, ?_⟩
  · rw [hg]
  · rw [hg]
    decide

/-- The sequential wrapped write loop computes, at each index `j`, the
clamped additive fold of exactly the overdub samples that hit `j`, in
order. -/
theorem overdubPass_apply (od : ℕ → ℚ) (st T : ℕ) (n : ℕ)
    (buf : ℕ → ℚ) (j : ℕ) :
    overdubPass od st T n buf j =
      layerFold od (buf j) (hitIndices st T n j) := by
  induction n generalizing j with
  | zero => rfl
  | succ n ih =>
      have hstep : overdubPass od st T (n + 1) buf = fun j =>
          if j = (st + n) % T
          then clampSample
            (overdubPass od st T n buf ((st + n) % T) + od n * (3/5))
          else overdubPass od st T n buf j := rfl
      rw [hstep]
      simp only []
      rw [hitIndices, List.range_succ, List.filter_append]
      by_cases hj : j = (st + n) % T
      · rw [if_pos hj]
        subst hj
        have hfn : List.filter
            (fun i => decide ((st + i) % T = (st + n) % T)) [n] =
            [n] := by
          simp
        rw [hfn, layerFold, List.foldl_append]
        simp only [List.foldl_cons, List.foldl_nil]
        rw [ih ((st + n) % T), layerFold, hitIndices]
      · rw [if_neg hj]
        have hfn : List.filter
            (fun i => decide ((st + i) % T = j)) [n] = [] := by
          simp
          exact fun h => hj h.symm
        rw [hfn, List.append_nil]
        exact ih j

/-! ## Claim C1 (amended): the overdub mixing contract -/

/-- Claim C1 (amended): the mixed result has `max` channel count and
sample count `floor(loopDuration * sampleRate)` — `Math.floor`, not
`round` as originally claimed — and every sample of every channel equals
the clamped `0.6`-attenuated additive fold of exactly the overdub
samples that hit that index under the wraparound indexing (processed in
order), applied on top of the verbatim copy of the existing loop; on
channels the overdub lacks, the result is the plain copy.  The start
index is `floor(((overdubStartTimestamp - playStartTimestamp) mod
loopDuration) * sampleRate)` as claimed. -/
theorem mixOverdub_contract (D R odST pST : ℚ)
    (orig od : AudioBuffer) :
    (mixOverdub D R odST pST orig od).numberOfChannels =
      max orig.numberOfChannels od.numberOfChannels ∧
    (mixOverdub D R odST pST orig od).length = (⌊D * R⌋).toNat ∧
    (∀ c j, c < od.numberOfChannels →
      (mixOverdub D R odST pST orig od).data c j =
        layerFold (od.data c) (specCopied orig (targetSamplesOf D R) c j)
          (hitIndices (overdubStartSampleOf D R odST pST)
            (targetSamplesOf D R) od.length j)) ∧
    (∀ c j, od.numberOfChannels ≤ c →
      (mixOverdub D R odST pST orig od).data c j =
        specCopied orig (targetSamplesOf D R) c j) := by
  refine ⟨rfl, rfl, ?_, ?_⟩
  · intro c j hc
    show (if c < od.numberOfChannels then
        overdubPass (od.data c) (overdubStartSampleOf D R odST pST)
          (targetSamplesOf D R) od.length
          (fun i => specCopied orig (targetSamplesOf D R) c i)
      else fun i => specCopied orig (targetSamplesOf D R) c i) j = _
    rw [if_pos hc]
    exact overdubPass_apply _ _ _ _ _ j
  · intro c j hc
    show (if c < od.numberOfChannels then
        overdubPass (od.data c) (overdubStartSampleOf D R odST pST)
          (targetSamplesOf D R) od.length
          (fun i => specCopied orig (targetSamplesOf D R) c i)
      else fun i => specCopied orig (targetSamplesOf D R) c i) j = _
    rw [if_neg (not_lt.mpr hc)]

/-- Claim C1's allocation size is wrong: with `loopDuration * sampleRate
= 2.7` the code allocates `Math.floor(2.7) = 2` samples while the claim
says `round(2.7) = 3`. -/
theorem mixOverdub_round_counterexample :
    (mixOverdub (27/50) 5 0 0 shortLoopBuffer
        shortOverdubBuffer).length = 2 ∧
    jsRound ((27/50) * 5) = 3 ∧ (2 : ℤ) ≠ 3 := by
  refine ⟨?_, ?_, by decide⟩
  · show targetSamplesOf (27/50) 5 = 2
    rw [targetSamplesOf, show ((27:ℚ)/50) * 5 = 27/10 by norm_num,
      show ⌊(27/10 : ℚ)⌋ = 2 from by
        rw [Int.floor_eq_iff] <;> norm_num]
    rfl
  · rw [jsRound, show ((27:ℚ)/50) * 5 + 1/2 = 16/5 by norm_num,
      Int.floor_eq_iff] <;> norm_num

/-- Witness for C1 (amended) on a concrete channel in range. -/
theorem mixOverdub_contract_witness :
    (mixOverdub (27/50) 5 0 0 shortLoopBuffer
        shortOverdubBuffer).data 0 0 =
      layerFold (shortOverdubBuffer.data 0)
        (specCopied shortLoopBuffer (targetSamplesOf (27/50) 5) 0 0)
        (hitIndices (overdubStartSampleOf (27/50) 5 0 0)
          (targetSamplesOf (27/50) 5) shortOverdubBuffer.length 0) :=
  (mixOverdub_contract (27/50) 5 0 0 shortLoopBuffer
    shortOverdubBuffer).2.2.1 0 0 (by decide)

/-! ## Modular hit counting, for the wraparound claim -/

/-- A nodup list whose members all equal its one known member is that
singleton. -/
theorem eq_singleton_of_mem {l : List ℕ} {x : ℕ} (hn : l.Nodup)
    (hx : x ∈ l) (hall : ∀ y ∈ l, y = x) : l = [x] := by
  cases l with
  | nil => cases hx
  | cons a t =>
      have ha : a = x := hall a (by simp)
      subst ha
      have ht : t = [] := by
        rw [List.nodup_cons] at hn
        cases t with
        | nil => rfl
        | cons b u =>
            have hb : b = a := hall b (by simp)
            exact absurd (hb ▸ List.mem_cons_self b u) hn.1
      rw [ht]

/-- In one window of `T` consecutive overdub samples there is exactly
one index hitting each result index `j < T`, namely
`(j + T - st % T) % T`. -/
theorem mod_hit_unique (T st j : ℕ) (hT : 0 < T) (hj : j < T) :
    ((j + T - st % T) % T < T ∧
     (st + (j + T - st % T) % T) % T = j) ∧
    ∀ i, i < T → (st + i) % T = j → i = (j + T - st % T) % T := by
  have hr : st % T < T := Nat.mod_lt st hT
  have win : ∀ a, a < 2 * T →
      a % T = if a < T then a else a - T := by
    intro a ha
    by_cases hc : a < T
    · rw [if_pos hc, Nat.mod_eq_of_lt hc]
    · rw [if_neg hc, Nat.mod_eq_sub_mod (Nat.le_of_not_lt hc),
        Nat.mod_eq_of_lt (by omega)]
  have key : ∀ i, i < T → (st + i) % T =
      if st % T + i < T then st % T + i else st % T + i - T := by
    intro i hi
    rw [Nat.add_mod, Nat.mod_eq_of_lt hi]
    exact win (st % T + i) (by omega)
  have hi0 : (j + T - st % T) % T =
      if j + T - st % T < T then j + T - st % T
      else j + T - st % T - T := win _ (by omega)
  constructor
  · refine ⟨Nat.mod_lt _ hT, ?_⟩
    rw [key _ (Nat.mod_lt _ hT), hi0]
    split_ifs <;> omega
  · intro i hi hmod
    rw [key i hi] at hmod
    rw [hi0]
    split_ifs at hmod ⊢ <;> omega

/-- The hit list of one whole window is that singleton. -/
theorem hitIndices_single (st T j : ℕ) (hT : 0 < T) (hj : j < T) :
    hitIndices st T T j = [(j + T - st % T) % T] := by
  obtain ⟨⟨hi0lt, hi0mod⟩, huniq⟩ := mod_hit_unique T st j hT hj
  refine eq_singleton_of_mem ((List.nodup_range T).filter _) ?_ ?_
  · rw [hitIndices, List.mem_filter]
    exact ⟨List.mem_range.mpr hi0lt, by simp [hi0mod]⟩
  · intro y hy
    rw [hitIndices, List.mem_filter, List.mem_range] at hy
    exact huniq y hy.1 (by simpa using hy.2)

/-- An overdub clip of exactly two loop cycles hits every result index
`j < T` exactly twice, at one window index and its shift by `T`. -/
theorem hitIndices_double (st T j : ℕ) (hT : 0 < T) (hj : j < T) :
    hitIndices st T (2 * T) j =
      [(j + T - st % T) % T, T + (j + T - st % T) % T] := by
  rw [hitIndices, two_mul, List.range_add, List.filter_append]
  have h1 : (List.range T).filter
      (fun i => decide ((st + i) % T = j)) = [(j + T - st % T) % T] :=
    hitIndices_single st T j hT hj
  have h2 : ((List.range T).map (T + ·)).filter
      (fun i => decide ((st + i) % T = j)) =
      [T + (j + T - st % T) % T] := by
    rw [List.filter_map]
    have hcongr : (List.range T).filter
        ((fun i => decide ((st + i) % T = j)) ∘ (T + ·)) =
        (List.range T).filter
        (fun i => decide ((st + i) % T = j)) := by
      refine List.filter_congr ?_
      intro i _
      simp only [Function.comp]
      have : (st + (T + i)) % T = (st + i) % T := by
        rw [show st + (T + i) = T + (st + i) by omega,
          Nat.add_mod_left]
      rw [this]
    rw [hcongr, h1]
    rfl
  rw [h1, h2]
  rfl

/-! ## Claim C3 (amended): overdub wraparound of a double-length clip -/

/-- Claim C3 (amended): mixing an overdub clip of length exactly twice
the loop (`2 * targetSamples` samples) carrying a constant signal `s`
onto an all-zero loop covers every sample exactly twice via the modular
wraparound: each sample ends at
`clamp(-1,1, clamp(-1,1, 0.6*s) + 0.6*s)` — the attenuated signal is
accumulated twice, not once as the original claim stated. -/
theorem mixOverdub_double_wrap (D R odST pST s : ℚ)
    (orig od : AudioBuffer)
    (hT : 0 < targetSamplesOf D R)
    (hlen : od.length = 2 * targetSamplesOf D R)
    (hconst : ∀ c i, c < od.numberOfChannels → i < od.length →
      od.data c i = s)
    (hzero : ∀ c i, c < orig.numberOfChannels → i < orig.length →
      orig.data c i = 0) :
    ∀ c j, c < od.numberOfChannels → j < targetSamplesOf D R →
      (mixOverdub D R odST pST orig od).data c j =
        clampSample (clampSample (s * (3/5)) + s * (3/5)) := by
  intro c j hc hj
  have hdata : (mixOverdub D R odST pST orig od).data c j =
      layerFold (od.data c)
        (specCopied orig (targetSamplesOf D R) c j)
        (hitIndices (overdubStartSampleOf D R odST pST)
          (targetSamplesOf D R) od.length j) := by
    show (if c < od.numberOfChannels then
        overdubPass (od.data c) (overdubStartSampleOf D R odST pST)
          (targetSamplesOf D R) od.length
          (fun i => specCopied orig (targetSamplesOf D R) c i)
      else fun i => specCopied orig (targetSamplesOf D R) c i) j = _
    rw [if_pos hc]
    exact overdubPass_apply _ _ _ _ _ j
  rw [hdata, hlen,
    hitIndices_double (overdubStartSampleOf D R odST pST)
      (targetSamplesOf D R) j hT hj]
  have hbase : specCopied orig (targetSamplesOf D R) c j = 0 := by
    rw [specCopied]
    split_ifs with hcond
    · exact hzero c j hcond.1
        (lt_of_lt_of_le hcond.2 (min_le_left _ _))
    · rfl
  rw [layerFold]
  simp only [List.foldl_cons, List.foldl_nil]
  rw [hbase]
  have hm := Nat.mod_lt (j + targetSamplesOf D R -
    overdubStartSampleOf D R odST pST % targetSamplesOf D R) hT
  have h1 : od.data c ((j + targetSamplesOf D R -
      overdubStartSampleOf D R odST pST % targetSamplesOf D R) %
        targetSamplesOf D R) = s :=
    hconst c _ hc (by rw [hlen]; omega)
  have h2 : od.data c (targetSamplesOf D R +
      (j + targetSamplesOf D R -
        overdubStartSampleOf D R odST pST % targetSamplesOf D R) %
          targetSamplesOf D R) = s :=
    hconst c _ hc (by rw [hlen]; omega)
  rw [h1, h2, zero_add]

/-- Value of `targetSamples` for `loopDuration = 2`, `sampleRate = 2`. -/
theorem targetSamples_two_two : targetSamplesOf 2 2 = 4 := by
  rw [targetSamplesOf, show ((2:ℚ) * 2) = ((4:ℤ):ℚ) by norm_num,
    Int.floor_intCast]
  rfl

/-- The overdub start sample when overdub and playback started together. -/
theorem overdubStart_two_two_zero :
    overdubStartSampleOf 2 2 0 0 = 0 := by
  rw [overdubStartSampleOf, jsFmod]
  norm_num

/-- Claim C3's claimed value is wrong: with constant signal `s = 1` on
an all-zero loop, a double-length overdub leaves every sample at
`clamp(clamp(0.6) + 0.6) = 1`, while the claim says `clamp(0.6·1) =
0.6`. -/
theorem mixOverdub_wrap_counterexample :
    (mixOverdub 2 2 0 0 zeroLoopBuffer fullOverdubBuffer).data 0 0
      = 1 ∧
    clampSample (1 * (3/5)) = 3/5 ∧ ((1:ℚ) ≠ 3/5) := by
  refine ⟨?_, ?_, by norm_num⟩
  · have hdata : (mixOverdub 2 2 0 0 zeroLoopBuffer
        fullOverdubBuffer).data 0 0 =
        layerFold (fullOverdubBuffer.data 0)
          (specCopied zeroLoopBuffer (targetSamplesOf 2 2) 0 0)
          (hitIndices (overdubStartSampleOf 2 2 0 0)
            (targetSamplesOf 2 2) fullOverdubBuffer.length 0) := by
      show (if (0:ℕ) < fullOverdubBuffer.numberOfChannels then
          overdubPass (fullOverdubBuffer.data 0)
            (overdubStartSampleOf 2 2 0 0) (targetSamplesOf 2 2)
            fullOverdubBuffer.length
            (fun i => specCopied zeroLoopBuffer
              (targetSamplesOf 2 2) 0 i)
        else fun i => specCopied zeroLoopBuffer
          (targetSamplesOf 2 2) 0 i) 0 = _
      rw [if_pos (by decide)]
      exact overdubPass_apply _ _ _ _ _ 0
    rw [hdata, targetSamples_two_two, overdubStart_two_two_zero,
      show fullOverdubBuffer.length = 2 * 4 from rfl,
      hitIndices_double 0 4 0 (by decide) (by decide)]
    norm_num [layerFold, specCopied, clampSample, zeroLoopBuffer,
      fullOverdubBuffer, min_def, max_def]
  · norm_num [clampSample, min_def, max_def]

/-- Witness for C3 (amended) at the same concrete double-length
constant-1 overdub. -/
theorem mixOverdub_double_wrap_witness :
    (mixOverdub 2 2 0 0 zeroLoopBuffer fullOverdubBuffer).data 0 0 =
      clampSample (clampSample (1 * (3/5)) + 1 * (3/5)) :=
  mixOverdub_double_wrap 2 2 0 0 1 zeroLoopBuffer fullOverdubBuffer
    (by rw [targetSamples_two_two]; decide)
    (by rw [targetSamples_two_two]; rfl)
    (fun _ _ _ _ => rfl)
    (fun _ _ _ _ => rfl)
    0 0 (by decide) (by rw [targetSamples_two_two]; decide)

end OilSynth
